import Mathlib

/-!
Verification development for the servicenow-agent frontend.

The definitions below are a shallow embedding of the two source files of the
repository: `src/frontend/src/App.jsx` (the query lifecycle controller, the
history persistence, and the result table rendering) and
`src/frontend/vite.config.ts` (the dev proxy rule and the PostCSS
background-image URL rewrite plugin).  Machine-level JavaScript builtins
(`JSON.stringify` / `JSON.parse`, `String.prototype.replace` with the
plugin's regex, `new URL`) are modelled explicitly; each such model carries a
doc comment naming the builtin it embeds and the scope of the model.
-/

/-! ## History entries and their JSON persistence

`App.jsx` persists the search history with
`localStorage.setItem('searchHistory', JSON.stringify(newHistory))` and
restores it with `JSON.parse(localStorage.getItem('searchHistory'))`.
A history entry is created as `{ query, timestamp: new Date().toISOString() }`,
so both fields are strings.
-/

/-- A history entry, `\x7b query: string, timestamp: string \x7d` in `App.jsx`. -/
structure HistoryEntry where
  query : String
  timestamp : String
deriving DecidableEq, Repr

/-- Lower-case hexadecimal digit for a value below 16, as emitted by
JavaScript's JSON escaping of control characters. -/
def hexDigit (n : Nat) : Char :=
  if n < 10 then Char.ofNat (48 + n) else Char.ofNat (87 + n)

/-- Modelled from the builtin `JSON.stringify` escaping of one character
inside a string literal: `"` and `\` are backslash-escaped, the control
characters with short forms use them, the remaining control characters use a
`\u00XX` escape, and every other character is emitted verbatim. -/
def escChar (c : Char) : List Char :=
  if c = '"' then ['\\', '"']
  else if c = '\\' then ['\\', '\\']
  else if c = '\n' then ['\\', 'n']
  else if c = '\r' then ['\\', 'r']
  else if c = '\t' then ['\\', 't']
  else if c.toNat = 8 then ['\\', 'b']
  else if c.toNat = 12 then ['\\', 'f']
  else if c.toNat < 32 then
    ['\\', 'u', '0', '0', hexDigit (c.toNat / 16), hexDigit (c.toNat % 16)]
  else [c]

/-- Modelled from the builtin `JSON.stringify` of a string value: a quoted,
escaped character sequence. -/
def escString (s : String) : List Char :=
  '"' :: (s.data.flatMap escChar ++ ['"'])

/-- Modelled from the builtin `JSON.stringify` of one history entry object:
property order is insertion order, so `query` precedes `timestamp`. -/
def serEntryChars (e : HistoryEntry) : List Char :=
  "\x7b\"query\":".data ++ (escString e.query
    ++ (",\"timestamp\":".data ++ (escString e.timestamp ++ "\x7d".data)))

/-- Modelled from the builtin `JSON.stringify` of the history array. -/
def serHistoryChars (h : List HistoryEntry) : List Char :=
  match h with
  | [] => "[]".data
  | e :: es =>
    '[' :: (serEntryChars e
      ++ (es.flatMap (fun e2 => ',' :: serEntryChars e2) ++ [']']))

/-- Serialized form of the history, the string written to the
`searchHistory` localStorage slot by `handleSubmit`. -/
def serHistory (h : List HistoryEntry) : String :=
  String.mk (serHistoryChars h)

/-- Value of one hexadecimal digit character, or `none`. -/
def parseHexDigit (c : Char) : Option Nat :=
  if 48 ≤ c.toNat ∧ c.toNat ≤ 57 then some (c.toNat - 48)
  else if 97 ≤ c.toNat ∧ c.toNat ≤ 102 then some (c.toNat - 87)
  else if 65 ≤ c.toNat ∧ c.toNat ≤ 70 then some (c.toNat - 55)
  else none

/-- Drop an expected literal character sequence from the front of the input,
returning the remainder, or `none` when the input does not start with it. -/
def dropLit : List Char → List Char → Option (List Char)
  | [], l => some l
  | _ :: _, [] => none
  | c :: cs, d :: ds => if c = d then dropLit cs ds else none

/-- Body of a JSON string literal after the opening quote: accumulates
unescaped characters (in reverse) until the closing quote.  Modelled from the
builtin `JSON.parse` treatment of string literals; a raw control character,
a lone backslash, or an unknown escape is a parse error. -/
def parseStrBody : List Char → List Char → Option (List Char × List Char)
  | _, [] => none
  | acc, c :: rest =>
    if c = '"' then some (acc.reverse, rest)
    else if c = '\\' then
      match rest with
      | [] => none
      | e :: rest2 =>
        if e = '"' then parseStrBody ('"' :: acc) rest2
        else if e = '\\' then parseStrBody ('\\' :: acc) rest2
        else if e = '/' then parseStrBody ('/' :: acc) rest2
        else if e = 'n' then parseStrBody ('\n' :: acc) rest2
        else if e = 'r' then parseStrBody ('\r' :: acc) rest2
        else if e = 't' then parseStrBody ('\t' :: acc) rest2
        else if e = 'b' then parseStrBody (Char.ofNat 8 :: acc) rest2
        else if e = 'f' then parseStrBody (Char.ofNat 12 :: acc) rest2
        else if e = 'u' then
          match rest2 with
          | d1 :: d2 :: d3 :: d4 :: rest3 =>
            match parseHexDigit d1, parseHexDigit d2,
                  parseHexDigit d3, parseHexDigit d4 with
            | some a, some b, some c2, some d =>
              parseStrBody (Char.ofNat (((a * 16 + b) * 16 + c2) * 16 + d) :: acc) rest3
            | _, _, _, _ => none
          | _ => none
        else none
    else if c.toNat < 32 then none
    else parseStrBody (c :: acc) rest

/-- A JSON string literal: opening quote then `parseStrBody`. -/
def parseString (l : List Char) : Option (List Char × List Char) :=
  match l with
  | '"' :: rest => parseStrBody [] rest
  | _ => none

/-- One serialized history entry object
`\x7b"query":<string>,"timestamp":<string>\x7d`.  Modelled from the builtin
`JSON.parse`, restricted to the exact grammar `JSON.stringify` produces for a
`HistoryEntry` (no interleaved whitespace, fixed property order). -/
def parseEntry (l : List Char) : Option (HistoryEntry × List Char) :=
  match dropLit "\x7b\"query\":".data l with
  | none => none
  | some l1 =>
    match parseString l1 with
    | none => none
    | some (q, l2) =>
      match dropLit ",\"timestamp\":".data l2 with
      | none => none
      | some l3 =>
        match parseString l3 with
        | none => none
        | some (t, l4) =>
          match l4 with
          | '\x7d' :: l5 => some (⟨String.mk q, String.mk t⟩, l5)
          | _ => none

/-- Remaining elements of a serialized history array after the first entry:
either the closing bracket, or a comma followed by a further entry.  The fuel
argument bounds the number of entries and is instantiated with the length of
the remaining input. -/
def parseMoreEntries : Nat → List HistoryEntry → List Char →
    Option (List HistoryEntry × List Char)
  | _, _, [] => none
  | fuel, acc, c :: rest =>
    if c = ']' then some (acc.reverse, rest)
    else if c = ',' then
      match fuel with
      | 0 => none
      | fuel2 + 1 =>
        match parseEntry rest with
        | some (e, rest') => parseMoreEntries fuel2 (e :: acc) rest'
        | none => none
    else none

/-- A serialized history array: `[]` or `[<entry>(,<entry>)*]`. -/
def parseHistoryChars (l : List Char) : Option (List HistoryEntry × List Char) :=
  match l with
  | [] => none
  | c :: rest =>
    if c = '[' then
      match rest with
      | [] => none
      | d :: rest2 =>
        if d = ']' then some ([], rest2)
        else
          match parseEntry rest with
          | some (e, rest') => parseMoreEntries rest'.length [e] rest'
          | none => none
    else none

/-- Modelled from the builtin `JSON.parse` applied to the stored history
slot, restricted to the grammar `JSON.stringify` produces for a history
array; `none` models the `SyntaxError` thrown on malformed input. -/
def parseHistory (s : String) : Option (List HistoryEntry) :=
  match parseHistoryChars s.data with
  | some (h, rest) => if rest = [] then some h else none
  | none => none

/-- The history-restoring effect of `App.jsx`:
`const savedHistory = localStorage.getItem('searchHistory');
if (savedHistory) \x7b setSearchHistory(JSON.parse(savedHistory)); \x7d`.
The argument is the stored slot (`none` when absent); the result is the
seeded history, with `none` modelling the exception `JSON.parse` throws on a
malformed stored value.  An absent slot or the empty string (falsy in the
`if`) leaves the initial empty history in place. -/
def loadHistory (stored : Option String) : Option (List HistoryEntry) :=
  match stored with
  | none => some []
  | some s => if s = "" then some [] else parseHistory s

/-! ## Response bodies, records, and the submit state machine

`App.jsx` keeps five pieces of state (`query`, `results`, `loading`,
`error`, `searchHistory`) plus the `searchHistory` localStorage slot.
`handleSubmit` awaits `axios.get`, and axios resolves the promise exactly
when the HTTP status is 2xx; on any other delivered status it rejects with
`err.response` attached, and on a transport failure it rejects with only
`err.message`.
-/

/-- The assigned-to object nested in a record, carrying `display_value`. -/
structure AssignedTo where
  display_value : String
deriving DecidableEq, Repr

/-- A result record as consumed by the results table of `App.jsx`. -/
structure Record where
  number : String
  short_description : String
  state : String
  opened_at : Option String
  assigned_to : Option AssignedTo
deriving DecidableEq, Repr

/-- A parsed response body: the `success` flag, the optional `error` string
field, and the optional `data` array, the shape `App.jsx` reads off
`response.data` and `err.response.data`. -/
structure Body where
  success : Bool
  error : Option String
  data : Option (List Record)
deriving DecidableEq, Repr

/-- Outcome of the transport for one submission: either a response with an
HTTP status and a parsed body was delivered, or the transport failed with a
message and no response was delivered. -/
inductive Transport where
  | response (status : Nat) (body : Body)
  | networkFailure (message : String)
deriving DecidableEq, Repr

/-- Modelled from axios's default `validateStatus`: a delivered response
resolves the promise exactly when its status is in [200, 300). -/
def is2xx (status : Nat) : Bool := 200 ≤ status && status < 300

/-- Whether the awaited `axios.get` promise resolves for this outcome. -/
def submissionResolves (t : Transport) : Bool :=
  match t with
  | .response status _ => is2xx status
  | .networkFailure _ => false

/-- The catch-branch message for a rejection carrying a response:
`err.response.data.error || 'An error occurred'` (the empty string is falsy
under `||`). -/
def errMsgOfBody (b : Body) : String :=
  match b.error with
  | some m => if m = "" then "An error occurred" else m
  | none => "An error occurred"

/-- The component state of `App.jsx` together with the localStorage slot it
writes: the five `useState` cells and the stored serialized history. -/
structure AppState where
  query : String
  results : Option Body
  loading : Bool
  error : Option String
  searchHistory : List HistoryEntry
  storage : Option String
deriving DecidableEq, Repr

/-- The synchronous head of `handleSubmit`, before the await:
`setLoading(true); setError(null)`. -/
def submitStart (s : AppState) : AppState :=
  { s with loading := true, error := none }

/-- The continuation of `handleSubmit` after the awaited `axios.get`
settles, given the state at the suspension point.  On resolution it prepends
a new history entry (timestamped `now`), rewrites the whole serialized
history to the storage slot, and stores the body in `results`; on rejection
it only sets `error` from the catch branch.  The `finally` branch clears
`loading` on both paths. -/
def submitSettle (s : AppState) (t : Transport) (now : String) : AppState :=
  match t with
  | .response status body =>
    if is2xx status then
      let newHistory := { query := s.query, timestamp := now } :: s.searchHistory
      { s with searchHistory := newHistory,
               storage := some (serHistory newHistory),
               results := some body,
               loading := false }
    else
      { s with error := some (errMsgOfBody body), loading := false }
  | .networkFailure msg =>
    { s with error := some msg, loading := false }

/-- One complete run of `handleSubmit` (App.jsx lines 19–45) for a given
transport outcome `t` and timestamp `now`, with no interleaved submission:
the synchronous head followed by the continuation after the await. -/
def handleSubmit (s : AppState) (t : Transport) (now : String) : AppState :=
  submitSettle (submitStart s) t now

/-- The request-lifecycle state of the spec's data model. -/
inductive RequestState where
  | Idle
  | Loading
  | Success (b : Body)
  | Failed (msg : String)
deriving DecidableEq, Repr

/-- Abstraction from the component state to the spec's `RequestState`,
read off the render of `App.jsx`: the button is in its loading form while
`loading` is set, the inline error message renders when `error` is set, and
the results payload is held once `results` is set. -/
def viewState (s : AppState) : RequestState :=
  if s.loading then .Loading
  else
    match s.error with
    | some m => .Failed m
    | none =>
      match s.results with
      | some b => .Success b
      | none => .Idle

/-- The assigned-to cell of one table row:
`record.assigned_to?.display_value || 'Unassigned'` — optional chaining
yields `undefined` when `assigned_to` is absent, and `||` falls through to
the literal on `undefined` and on the empty string alike. -/
def renderAssignedTo (r : Record) : String :=
  match r.assigned_to with
  | some a => if a.display_value = "" then "Unassigned" else a.display_value
  | none => "Unassigned"

/-- A concrete component state used to instantiate theorems: the initial
state after mount with an empty stored history, with the query "x" typed. -/
def exampleState : AppState :=
  { query := "x", results := none, loading := false, error := none,
    searchHistory := [], storage := none }

/-! ## The outbound search request and the dev proxy rule -/

/-- An outbound HTTP GET request: the request URL and the query parameters
axios appends from its `params` option. -/
structure HttpRequest where
  url : String
  params : List (String × String)
deriving DecidableEq, Repr

/-- The single request `handleSubmit` issues:
`axios.get('http://localhost:8000/api/search_snow', \x7b params: \x7b
search_query: query, max_results: 100 \x7d \x7d)`; the number 100 is
serialized into the query string as "100". -/
def searchRequest (q : String) : HttpRequest :=
  { url := "http://localhost:8000/api/search_snow",
    params := [("search_query", q), ("max_results", "100")] }

/-- Whether the string `s` starts with the literal `p` (JavaScript's
`String.prototype.startsWith`). -/
def strStarts (s p : String) : Bool :=
  (dropLit p.data s.data).isSome

/-- Path component of an absolute `http://host[:port]/...` URL: everything
from the first slash after the authority. -/
def pathOfUrl (u : String) : String :=
  let rest := if strStarts u "http://" then String.mk (u.data.drop 7) else u
  String.mk (rest.data.dropWhile (fun c => c ≠ '/'))

/-- The dev proxy path rewrite of `vite.config.ts`:
`(path) => path.replace(/^\/api/, '')` — anchored, so only a leading
`/api` is stripped.  It applies only to requests addressed to the dev
server itself under the `/api` namespace. -/
def proxyRewrite (path : String) : String :=
  if strStarts path "/api" then String.mk (path.data.drop 4) else path

/-! ## The PostCSS background-image URL rewrite

The plugin in `vite.config.ts` rewrites, inside every `background-image`
declaration value containing "url", each match of the regex
`url\((['"]?)(.*?)\1\)` (global), replacing the token by
`url(<quote><new URL(url, 'http://localhost:3000').href><quote>)` unless the
inner reference starts with "data:" or with "http", in which case the match
is left unchanged.
-/

/-- Whether a character is matched by the regex metacharacter `.` (without
the dotAll flag): everything except the four JavaScript line terminators. -/
def isDotChar (c : Char) : Bool :=
  c ≠ '\n' && c ≠ '\r' && c.toNat ≠ 8232 && c.toNat ≠ 8233

/-- Lazy scan of `.*?` followed by a literal terminator: returns the
shortest run of `.`-matchable characters after which the terminator is a
prefix, together with the input after the terminator. -/
def lazyFind (term : List Char) : List Char → Option (List Char × List Char)
  | [] =>
    match dropLit term [] with
    | some rest => some ([], rest)
    | none => none
  | c :: cs =>
    match dropLit term (c :: cs) with
    | some rest => some ([], rest)
    | none =>
      if isDotChar c then
        match lazyFind term cs with
        | some (content, rest) => some (c :: content, rest)
        | none => none
      else none

/-- One matched `url(...)` token: the capture of `(['"]?)` (one quote
character, or empty) and the capture of `(.*?)`. -/
structure UrlToken where
  quote : String
  inner : String
deriving DecidableEq, Repr

/-- Modelled from matching the regex `url\((['"]?)(.*?)\1\)` at the head of
the input: the literal `url(`, then — the optional quote group being greedy —
an attempt with the quote captured (content is the lazy shortest run up to
the quote followed by `)`), falling back on failure to the empty capture
(content up to the first `)`). -/
def matchUrlAt (l : List Char) : Option (UrlToken × List Char) :=
  match dropLit "url(".data l with
  | none => none
  | some after =>
    let quoted : Option (UrlToken × List Char) :=
      match after with
      | c :: cs =>
        if c = '\'' || c = '"' then
          match lazyFind [c, ')'] cs with
          | some (content, rest) => some (⟨String.mk [c], String.mk content⟩, rest)
          | none => none
        else none
      | [] => none
    match quoted with
    | some r => some r
    | none =>
      match lazyFind [')'] after with
      | some (content, rest) => some (⟨"", String.mk content⟩, rest)
      | none => none

/-- Characters of a reference on which the URL parser is the identity:
ASCII letters and digits together with the punctuation
`- . _ ~ ! $ & * + , ; = @ ( /` — characters the WHATWG path serializer
emits without percent-encoding and that play no structural role in
resolution.  Excluded in particular: `:` (would start a scheme), `%`
(percent-encoding), `\` (a segment separator in HTTP URLs), `?` and `#`
(query/fragment delimiters), space, controls, and every non-ASCII
character (percent-encoded in paths). -/
def urlSafeChar (c : Char) : Bool :=
  (97 ≤ c.toNat && c.toNat ≤ 122) || (65 ≤ c.toNat && c.toNat ≤ 90) ||
  (48 ≤ c.toNat && c.toNat ≤ 57) ||
  c.toNat = 45 || c.toNat = 46 || c.toNat = 95 || c.toNat = 126 ||
  c.toNat = 33 || c.toNat = 36 || c.toNat = 38 || c.toNat = 42 ||
  c.toNat = 43 || c.toNat = 44 || c.toNat = 59 || c.toNat = 61 ||
  c.toNat = 64 || c.toNat = 40 || c.toNat = 47

/-- Segments of a path reference, split at `/` (the list is never empty;
an empty reference has the single empty segment). -/
def pathSegments : List Char → List (List Char)
  | [] => [[]]
  | c :: cs =>
    if c = '/' then [] :: pathSegments cs
    else
      match pathSegments cs with
      | seg :: rest => (c :: seg) :: rest
      | [] => [[c]]

/-- Modelled from the builtin `new URL(u, 'http://localhost:3000').href`,
faithful on the domain the theorems below quantify over: references made of
`urlSafeChar` characters, without a leading slash and without `.` or `..`
segments.  On that domain the href is the base origin, a slash, and the
reference verbatim.  The root-relative and scheme-relative branches cover
the call sites' other canonical inputs; references outside this scope
(absolute schemes, dot segments, characters the URL serializer
percent-encodes, non-canonical authorities) are outside the modelled
domain and no theorem relies on the model there. -/
def resolveURL (u : String) : String :=
  if strStarts u "//" then "http:" ++ u
  else if strStarts u "/" then "http://localhost:3000" ++ u
  else "http://localhost:3000/" ++ u

/-- The replacer callback of the plugin: rewrite to the resolved absolute
URL keeping the captured quote unless the inner reference starts with
"data:" or with "http"; otherwise return the match unchanged (for a token of
this shape the reconstruction `url(<quote><inner><quote>)` is the matched
text itself). -/
def rewriteToken (tok : UrlToken) : String :=
  if !(strStarts tok.inner "data:") && !(strStarts tok.inner "http") then
    "url(" ++ tok.quote ++ resolveURL tok.inner ++ tok.quote ++ ")"
  else
    "url(" ++ tok.quote ++ tok.inner ++ tok.quote ++ ")"

/-- Modelled from `String.prototype.replace` with the global regex: scan
left to right; at each position emit the replacement and continue after a
match, or keep the character and move one ahead.  The fuel argument, always
instantiated with the input length, bounds the scan; every match consumes at
least five characters, so the fuel never runs out before the input does. -/
def replaceUrlTokens : Nat → List Char → List Char
  | 0, l => l
  | fuel + 1, l =>
    match l with
    | [] => []
    | c :: cs =>
      match matchUrlAt (c :: cs) with
      | some (tok, rest) => (rewriteToken tok).data ++ replaceUrlTokens fuel rest
      | none => c :: replaceUrlTokens fuel cs

/-- The full regex replacement over one declaration value. -/
def rewriteValue (v : String) : String :=
  String.mk (replaceUrlTokens v.data.length v.data)

/-- Whether "url" occurs anywhere in the input
(`decl.value.includes('url')`). -/
def containsUrl : List Char → Bool
  | [] => false
  | c :: cs => (dropLit "url".data (c :: cs)).isSome || containsUrl cs

/-- The `OnceExit` visitor of the plugin restricted to one `background-image`
declaration value: the value is replaced only when it contains "url". -/
def transformBackgroundImage (v : String) : String :=
  if containsUrl v.data then rewriteValue v else v

/-- The `css.walkDecls('background-image', ...)` filter: only
`background-image` declarations are transformed. -/
def transformDecl (prop v : String) : String :=
  if prop = "background-image" then transformBackgroundImage v else v

/-! ## Claim theorems: the submit state machine -/

/-- C1: for every query string (the query is an arbitrary component of the
state, the empty string included), a run of `handleSubmit` passes through
the Loading state and, whether the awaited request resolves or rejects,
ends with the loading flag cleared and the view in exactly one of the
Success or Failed states — never Loading. -/
theorem C1_submit_never_ends_loading (s : AppState) (t : Transport) (now : String) :
    (submitStart s).loading = true ∧
    (handleSubmit s t now).loading = false ∧
    viewState (handleSubmit s t now) ≠ RequestState.Loading ∧
    ((∃ b, viewState (handleSubmit s t now) = RequestState.Success b) ∨
      (∃ m, viewState (handleSubmit s t now) = RequestState.Failed m)) := by
  refine ⟨rfl, ?_, ?_, ?_⟩ <;>
    cases t with
    | response status body =>
      by_cases h : is2xx status <;>
        simp [handleSubmit, submitStart, submitSettle, viewState, h]
    | networkFailure msg =>
      simp [handleSubmit, submitStart, submitSettle, viewState]

/-- C2: one run of `handleSubmit` prepends exactly one new entry (the
submitted query with the current timestamp) to the in-memory history and
rewrites the serialized history to the storage slot when and only when the
awaited request resolves — equivalently, when and only when the run ends in
the Success state; on a rejection both the in-memory history and the
storage slot are left unchanged. -/
theorem C2_history_append_iff_success (s : AppState) (t : Transport) (now : String) :
    ((handleSubmit s t now).searchHistory =
      if submissionResolves t then
        { query := s.query, timestamp := now } :: s.searchHistory
      else s.searchHistory) ∧
    ((handleSubmit s t now).storage =
      if submissionResolves t then
        some (serHistory ({ query := s.query, timestamp := now } :: s.searchHistory))
      else s.storage) ∧
    ((∃ b, viewState (handleSubmit s t now) = RequestState.Success b) ↔
      submissionResolves t = true) := by
  cases t with
  | response status body =>
    by_cases h : is2xx status <;>
      simp [handleSubmit, submitStart, submitSettle, viewState, submissionResolves, h]
  | networkFailure msg =>
    simp [handleSubmit, submitStart, submitSettle, viewState, submissionResolves]

/-- C3 counterexample: the transport delivers a 200 response whose body has
the success flag false and an error field present ("boom"), yet the run of
`handleSubmit` does not end in the Failed state holding "boom" — axios
resolves any 2xx response, so the code takes the success path and ends in
Success holding that body. -/
theorem C3_counterexample_app_failure_not_failed :
    viewState (handleSubmit exampleState
        (Transport.response 200 ⟨false, some "boom", none⟩) "2025-01-01T00:00:00.000Z") =
      RequestState.Success ⟨false, some "boom", none⟩ ∧
    viewState (handleSubmit exampleState
        (Transport.response 200 ⟨false, some "boom", none⟩) "2025-01-01T00:00:00.000Z") ≠
      RequestState.Failed "boom" := by
  exact ⟨rfl, by decide⟩

/-- C3 amended: for every submission where the transport delivers a response
with a non-2xx status (so the awaited request rejects with the response
attached) and the response body carries a non-empty error field, the run
ends in the Failed state holding that structured error message. -/
theorem C3_amended_rejected_response_failed (s : AppState) (status : Nat) (b : Body)
    (m : String) (now : String) (hstatus : is2xx status = false)
    (herr : b.error = some m) (hm : m ≠ "") :
    viewState (handleSubmit s (Transport.response status b) now) =
      RequestState.Failed m := by
  simp [handleSubmit, submitStart, submitSettle, viewState, errMsgOfBody,
    hstatus, herr, hm]

/-- C3 witness: the amended claim instantiated at a 500 response with error
field "boom". -/
theorem C3_amended_witness :
    is2xx 500 = false ∧ (Body.mk false (some "boom") none).error = some "boom" ∧
    "boom" ≠ "" ∧
    viewState (handleSubmit exampleState
        (Transport.response 500 ⟨false, some "boom", none⟩) "t") =
      RequestState.Failed "boom" :=
  ⟨by decide, rfl, by decide,
    C3_amended_rejected_response_failed exampleState 500 ⟨false, some "boom", none⟩
      "boom" "t" (by decide) rfl (by decide)⟩

/-- C9: on the failure path (the awaited request rejects), `handleSubmit`
leaves the previously held results payload unchanged, and also leaves the
history, the storage slot, and the query unchanged — the catch branch only
sets the error message and the finally branch only clears the loading
flag. -/
theorem C9_failure_preserves_results (s : AppState) (t : Transport) (now : String)
    (h : submissionResolves t = false) :
    (handleSubmit s t now).results = s.results ∧
    (handleSubmit s t now).searchHistory = s.searchHistory ∧
    (handleSubmit s t now).storage = s.storage ∧
    (handleSubmit s t now).query = s.query := by
  cases t with
  | response status body =>
    simp only [submissionResolves] at h
    simp [handleSubmit, submitStart, submitSettle, h]
  | networkFailure msg =>
    simp [handleSubmit, submitStart, submitSettle]

/-- C9 witness: the frame property instantiated at a concrete state (which
holds a previous results payload) and a transport failure. -/
theorem C9_witness :
    submissionResolves (Transport.networkFailure "offline") = false ∧
    ((handleSubmit { exampleState with results := some ⟨true, none, some []⟩ }
        (Transport.networkFailure "offline") "t").results =
      ({ exampleState with results := some ⟨true, none, some []⟩ } : AppState).results ∧
     (handleSubmit { exampleState with results := some ⟨true, none, some []⟩ }
        (Transport.networkFailure "offline") "t").searchHistory =
      ({ exampleState with results := some ⟨true, none, some []⟩ } : AppState).searchHistory ∧
     (handleSubmit { exampleState with results := some ⟨true, none, some []⟩ }
        (Transport.networkFailure "offline") "t").storage =
      ({ exampleState with results := some ⟨true, none, some []⟩ } : AppState).storage ∧
     (handleSubmit { exampleState with results := some ⟨true, none, some []⟩ }
        (Transport.networkFailure "offline") "t").query =
      ({ exampleState with results := some ⟨true, none, some []⟩ } : AppState).query) :=
  ⟨rfl, C9_failure_preserves_results
    { exampleState with results := some ⟨true, none, some []⟩ }
    (Transport.networkFailure "offline") "t" rfl⟩

/-- C10: when the awaited request rejects with a delivered response whose
body has no error field, the Failed state holds the literal "An error
occurred"; the transport-level description is the Failed message exactly on
the no-response rejection path. -/
theorem C10_error_message_selection :
    (∀ (s : AppState) (status : Nat) (b : Body) (now : String),
      is2xx status = false → b.error = none →
      viewState (handleSubmit s (Transport.response status b) now) =
        RequestState.Failed "An error occurred") ∧
    (∀ (s : AppState) (m now : String),
      viewState (handleSubmit s (Transport.networkFailure m) now) =
        RequestState.Failed m) := by
  constructor
  · intro s status b now hstatus herr
    simp [handleSubmit, submitStart, submitSettle, viewState, errMsgOfBody,
      hstatus, herr]
  · intro s m now
    simp [handleSubmit, submitStart, submitSettle, viewState]

/-- C10 witness: both branches instantiated — a 404 response with no error
field yields "An error occurred", and a pure network failure yields its
transport message. -/
theorem C10_witness :
    is2xx 404 = false ∧ (Body.mk false none none).error = none ∧
    viewState (handleSubmit exampleState
        (Transport.response 404 ⟨false, none, none⟩) "t") =
      RequestState.Failed "An error occurred" ∧
    viewState (handleSubmit exampleState
        (Transport.networkFailure "Network Error") "t") =
      RequestState.Failed "Network Error" :=
  ⟨by decide, rfl,
    C10_error_message_selection.1 exampleState 404 ⟨false, none, none⟩ "t" (by decide) rfl,
    C10_error_message_selection.2 exampleState "Network Error" "t"⟩

/-! ## Claim theorems: outbound request, result rendering, history loading -/

/-- C6: evaluation of the single outbound request `handleSubmit` issues.
The parameters are exactly search_query = q and max_results = 100, but the
request is addressed absolutely to the backend origin with path
`/api/search_snow` — not `/search_snow` — so it bypasses the dev proxy whose
rewrite (which strips the leading `/api`) would have produced
`/search_snow`. -/
theorem C6_request_path_evaluation (q : String) :
    pathOfUrl (searchRequest q).url = "/api/search_snow" ∧
    (searchRequest q).params = [("search_query", q), ("max_results", "100")] ∧
    ("/api/search_snow" : String) ≠ "/search_snow" ∧
    proxyRewrite "/api/search_snow" = "/search_snow" :=
  ⟨rfl, rfl, by decide, by decide⟩

/-- C8 counterexample: a record whose assigned_to object is present with an
empty display_value renders the literal "Unassigned", not its
display_value — so "Unassigned" is not rendered exactly when the object is
absent, and a present object's display_value is not always rendered. -/
theorem C8_counterexample_present_empty_display_value :
    renderAssignedTo ⟨"INC0001", "d", "open", none, some ⟨""⟩⟩ = "Unassigned" ∧
    renderAssignedTo ⟨"INC0001", "d", "open", none, some ⟨""⟩⟩ ≠ "" := by
  exact ⟨rfl, by decide⟩

/-- C8 amended: the assigned-to cell renders the nested object's
display_value whenever the assigned_to object is present with a non-empty
display_value, and renders the literal "Unassigned" when the object is
absent or its display_value is the empty string (the `||` fallback treats
both alike). -/
theorem C8_amended_assigned_to_rendering :
    (∀ (r : Record) (a : AssignedTo),
      r.assigned_to = some a → a.display_value ≠ "" →
      renderAssignedTo r = a.display_value) ∧
    (∀ r : Record, r.assigned_to = none → renderAssignedTo r = "Unassigned") ∧
    (∀ (r : Record) (a : AssignedTo),
      r.assigned_to = some a → a.display_value = "" →
      renderAssignedTo r = "Unassigned") := by
  refine ⟨?_, ?_, ?_⟩
  · intro r a h hne
    simp [renderAssignedTo, h, hne]
  · intro r h
    simp [renderAssignedTo, h]
  · intro r a h he
    simp [renderAssignedTo, h, he]

/-- C8 witness: the three amended cases instantiated — "J. Doe" present and
rendered verbatim, absence rendered "Unassigned", and an empty
display_value rendered "Unassigned". -/
theorem C8_amended_witness :
    renderAssignedTo ⟨"INC1", "d", "open", none, some ⟨"J. Doe"⟩⟩ = "J. Doe" ∧
    renderAssignedTo ⟨"INC2", "d", "open", none, none⟩ = "Unassigned" ∧
    renderAssignedTo ⟨"INC3", "d", "open", none, some ⟨""⟩⟩ = "Unassigned" :=
  ⟨C8_amended_assigned_to_rendering.1 ⟨"INC1", "d", "open", none, some ⟨"J. Doe"⟩⟩
      ⟨"J. Doe"⟩ rfl (by decide),
    C8_amended_assigned_to_rendering.2.1 ⟨"INC2", "d", "open", none, none⟩ rfl,
    C8_amended_assigned_to_rendering.2.2 ⟨"INC3", "d", "open", none, some ⟨""⟩⟩
      ⟨""⟩ rfl rfl⟩

/-- C4 counterexample: a malformed stored representation (the single
character `\x7b`, which no JSON parser accepts as a document) does not load
as the empty sequence — `JSON.parse` is called unguarded and throws, modelled
by the `none` result. -/
theorem C4_counterexample_malformed_throws :
    loadHistory (some "\x7b") = none ∧ loadHistory (some "\x7b") ≠ some [] := by
  exact ⟨by decide, by decide⟩

/-- C4 amended: an absent stored representation (and the empty string, which
the truthiness guard also treats as absent) loads as the empty sequence
with no error; a non-empty stored representation is handed to the
deserializer unguarded, so on a malformed one the deserialization error
propagates instead of being recovered to an empty sequence. -/
theorem C4_amended_load_behaviour :
    loadHistory none = some [] ∧
    loadHistory (some "") = some [] ∧
    (∀ s : String, s ≠ "" → loadHistory (some s) = parseHistory s) := by
  refine ⟨rfl, rfl, ?_⟩
  intro s h
  simp [loadHistory, h]

/-- C4 witness: the amended claim's universal part instantiated at the
stored string "[]". -/
theorem C4_amended_witness :
    loadHistory none = some [] ∧ loadHistory (some "[]") = parseHistory "[]" :=
  ⟨C4_amended_load_behaviour.1,
    C4_amended_load_behaviour.2.2 "[]" (by decide)⟩

/-! ## Claim theorems: history persistence round-trip

The lemmas below establish that the modelled `JSON.parse` inverts the
modelled `JSON.stringify` on history sequences: first character-level
escape/unescape, then string literals, then entry objects, then the array.
-/
theorem parseStrBody_close (acc rest : List Char) :
    parseStrBody acc ('"' :: rest) = some (acc.reverse, rest) := by
  rw [parseStrBody.eq_def]; simp

theorem parseStrBody_escq (acc rest : List Char) :
    parseStrBody acc ('\\' :: '"' :: rest) = parseStrBody ('"' :: acc) rest := by
  rw [parseStrBody.eq_def]; simp

theorem parseStrBody_escbs (acc rest : List Char) :
    parseStrBody acc ('\\' :: '\\' :: rest) = parseStrBody ('\\' :: acc) rest := by
  rw [parseStrBody.eq_def]; simp

theorem parseStrBody_escn (acc rest : List Char) :
    parseStrBody acc ('\\' :: 'n' :: rest) = parseStrBody ('\n' :: acc) rest := by
  rw [parseStrBody.eq_def]; simp

theorem parseStrBody_escr (acc rest : List Char) :
    parseStrBody acc ('\\' :: 'r' :: rest) = parseStrBody ('\r' :: acc) rest := by
  rw [parseStrBody.eq_def]; simp

theorem parseStrBody_esct (acc rest : List Char) :
    parseStrBody acc ('\\' :: 't' :: rest) = parseStrBody ('\t' :: acc) rest := by
  rw [parseStrBody.eq_def]; simp

theorem parseStrBody_escb (acc rest : List Char) :
    parseStrBody acc ('\\' :: 'b' :: rest) = parseStrBody (Char.ofNat 8 :: acc) rest := by
  rw [parseStrBody.eq_def]; simp

theorem parseStrBody_escf (acc rest : List Char) :
    parseStrBody acc ('\\' :: 'f' :: rest) = parseStrBody (Char.ofNat 12 :: acc) rest := by
  rw [parseStrBody.eq_def]; simp

theorem parseStrBody_escu (acc rest : List Char) (a b : Char) (va vb : Nat)
    (ha : parseHexDigit a = some va) (hb : parseHexDigit b = some vb) :
    parseStrBody acc ('\\' :: 'u' :: '0' :: '0' :: a :: b :: rest) =
      parseStrBody (Char.ofNat (va * 16 + vb) :: acc) rest := by
  have h0 : parseHexDigit '0' = some 0 := by decide
  rw [parseStrBody.eq_def]
  simp [ha, hb, h0]

theorem parseStrBody_plain (acc rest : List Char) (c : Char)
    (h1 : c ≠ '"') (h2 : c ≠ '\\') (h3 : ¬ c.toNat < 32) :
    parseStrBody acc (c :: rest) = parseStrBody (c :: acc) rest := by
  rw [parseStrBody.eq_def]
  simp [h1, h2, h3]

theorem dropLit_append (l r : List Char) : dropLit l (l ++ r) = some r := by
  induction l with
  | nil => rfl
  | cons c cs ih => simp [dropLit, ih]

theorem parseHexDigit_hexDigit (n : Nat) (h : n < 16) :
    parseHexDigit (hexDigit n) = some n := by
  have key : ∀ m : Fin 16, parseHexDigit (hexDigit m.val) = some m.val := by decide
  exact key ⟨n, h⟩

theorem parseStrBody_escChar (c : Char) (acc rest : List Char) :
    parseStrBody acc (escChar c ++ rest) = parseStrBody (c :: acc) rest := by
  by_cases h1 : c = '"'
  · subst h1; simp [escChar, parseStrBody_escq]
  by_cases h2 : c = '\\'
  · subst h2; simp [escChar, parseStrBody_escbs]
  by_cases h3 : c = '\n'
  · subst h3; simp [escChar, parseStrBody_escn]
  by_cases h4 : c = '\r'
  · subst h4; simp [escChar, parseStrBody_escr]
  by_cases h5 : c = '\t'
  · subst h5; simp [escChar, parseStrBody_esct]
  by_cases h6 : c.toNat = 8
  · have hc : Char.ofNat 8 = c := by rw [← h6, Char.ofNat_toNat]
    have hesc : escChar c = ['\\', 'b'] := by
      rw [escChar]
      simp [h1, h2, h3, h4, h5, h6]
    rw [hesc]
    simp only [List.cons_append, List.nil_append]
    rw [parseStrBody_escb, hc]
  by_cases h7 : c.toNat = 12
  · have hc : Char.ofNat 12 = c := by rw [← h7, Char.ofNat_toNat]
    have hesc : escChar c = ['\\', 'f'] := by
      rw [escChar]
      simp [h1, h2, h3, h4, h5, h6, h7]
    rw [hesc]
    simp only [List.cons_append, List.nil_append]
    rw [parseStrBody_escf, hc]
  by_cases h8 : c.toNat < 32
  · have hesc : escChar c =
        ['\\', 'u', '0', '0', hexDigit (c.toNat / 16), hexDigit (c.toNat % 16)] := by
      rw [escChar]
      simp [h1, h2, h3, h4, h5, h6, h7, h8]
    rw [hesc]
    have ha := parseHexDigit_hexDigit (c.toNat / 16) (by omega)
    have hb := parseHexDigit_hexDigit (c.toNat % 16) (Nat.mod_lt _ (by omega))
    rw [List.cons_append, List.cons_append, List.cons_append, List.cons_append,
      List.cons_append, List.cons_append, List.nil_append,
      parseStrBody_escu acc rest _ _ _ _ ha hb]
    have harith : c.toNat / 16 * 16 + c.toNat % 16 = c.toNat := by omega
    rw [harith, Char.ofNat_toNat]
  · have hesc : escChar c = [c] := by
      rw [escChar]
      simp [h1, h2, h3, h4, h5, h6, h7, h8]
    rw [hesc]
    simp [parseStrBody_plain acc rest c h1 h2 h8]

theorem parseStrBody_escBody (cs : List Char) :
    ∀ (acc rest : List Char),
      parseStrBody acc (cs.flatMap escChar ++ '"' :: rest) =
        some (acc.reverse ++ cs, rest) := by
  induction cs with
  | nil => intro acc rest; simp [parseStrBody_close]
  | cons c cs ih =>
    intro acc rest
    rw [List.flatMap_cons, List.append_assoc, parseStrBody_escChar, ih]
    simp

theorem parseString_escString (s : String) (rest : List Char) :
    parseString (escString s ++ rest) = some (s.data, rest) := by
  rw [escString, List.cons_append, List.append_assoc, List.singleton_append]
  rw [parseString]
  exact parseStrBody_escBody s.data [] rest

theorem String.mk_data_eq (s : String) : String.mk s.data = s := rfl

theorem parseEntry_serEntry (e : HistoryEntry) (rest : List Char) :
    parseEntry (serEntryChars e ++ rest) = some (e, rest) := by
  have h7 : ("\x7d".data : List Char) = ['\x7d'] := by decide
  rw [serEntryChars]
  simp only [List.append_assoc, h7, List.singleton_append]
  simp only [parseEntry, dropLit_append, parseString_escString, String.mk_data_eq]

theorem parseMoreEntries_close (fuel : Nat) (acc : List HistoryEntry) (rest : List Char) :
    parseMoreEntries fuel acc (']' :: rest) = some (acc.reverse, rest) := by
  rw [parseMoreEntries.eq_def]
  simp

theorem parseMoreEntries_comma (fuel : Nat) (acc : List HistoryEntry) (l : List Char) :
    parseMoreEntries (fuel + 1) acc (',' :: l) =
      match parseEntry l with
      | some (e, rest') => parseMoreEntries fuel (e :: acc) rest'
      | none => none := by
  rw [parseMoreEntries.eq_def]
  simp

theorem parseMoreEntries_ser (es : List HistoryEntry) :
    ∀ (fuel : Nat) (acc : List HistoryEntry) (rest : List Char),
      es.length ≤ fuel →
      parseMoreEntries fuel acc
          (es.flatMap (fun e => ',' :: serEntryChars e) ++ ']' :: rest) =
        some (acc.reverse ++ es, rest) := by
  induction es with
  | nil =>
    intro fuel acc rest _
    simp [parseMoreEntries_close]
  | cons e es ih =>
    intro fuel acc rest h
    cases fuel with
    | zero => simp at h
    | succ fuel2 =>
      simp only [List.flatMap_cons, List.cons_append, List.append_assoc]
      rw [parseMoreEntries_comma, parseEntry_serEntry]
      show parseMoreEntries fuel2 (e :: acc)
          (es.flatMap (fun e2 => ',' :: serEntryChars e2) ++ ']' :: rest) =
        some (acc.reverse ++ e :: es, rest)
      rw [ih fuel2 (e :: acc) rest (by simp at h; omega)]
      simp

theorem length_le_flatMap_entry (es : List HistoryEntry) :
    es.length ≤ (es.flatMap (fun e => ',' :: serEntryChars e)).length := by
  induction es with
  | nil => simp
  | cons e es ih =>
    simp only [List.flatMap_cons, List.length_append, List.length_cons]
    omega

theorem serEntryChars_cons (e : HistoryEntry) :
    serEntryChars e = '\x7b' :: ("\"query\":".data ++ (escString e.query
      ++ (",\"timestamp\":".data ++ (escString e.timestamp ++ "\x7d".data)))) := by
  rw [serEntryChars,
    show ("\x7b\"query\":".data : List Char) = '\x7b' :: "\"query\":".data from by decide,
    List.cons_append]

theorem parseHistoryChars_nonempty_array (rest0 tl : List Char) (d : Char)
    (hrest : rest0 = d :: tl) (hd : d ≠ ']') :
    parseHistoryChars ('[' :: rest0) =
      match parseEntry rest0 with
      | some (e, rest') => parseMoreEntries rest'.length [e] rest'
      | none => none := by
  subst hrest
  simp only [parseHistoryChars]
  simp [hd]

theorem String.data_mk_eq (l : List Char) : (String.mk l).data = l := rfl

theorem parseHistory_serHistory (h : List HistoryEntry) :
    parseHistory (serHistory h) = some h := by
  cases h with
  | nil => decide
  | cons e es =>
    rw [parseHistory, serHistory, String.data_mk_eq, serHistoryChars]
    rw [parseHistoryChars_nonempty_array _
        ("\"query\":".data ++ (escString e.query ++ (",\"timestamp\":".data
          ++ (escString e.timestamp ++ "\x7d".data)))
          ++ (es.flatMap (fun e2 => ',' :: serEntryChars e2) ++ [']']))
        '\x7b'
        (by rw [serEntryChars_cons, List.cons_append])
        (by decide)]
    rw [parseEntry_serEntry]
    have hlen : es.length ≤
        ((es.flatMap (fun e2 => ',' :: serEntryChars e2) ++ [']']) : List Char).length := by
      rw [List.length_append]
      have := length_le_flatMap_entry es
      omega
    show (match parseMoreEntries
        ((es.flatMap (fun e2 => ',' :: serEntryChars e2) ++ [']']) : List Char).length [e]
        ((es.flatMap (fun e2 => ',' :: serEntryChars e2) ++ [']']) : List Char) with
      | some (h2, rest) => if rest = [] then some h2 else none
      | none => none) = some (e :: es)
    rw [show ((es.flatMap (fun e2 => ',' :: serEntryChars e2) ++ [']']) : List Char)
        = es.flatMap (fun e2 => ',' :: serEntryChars e2) ++ ']' :: [] from rfl]
    rw [parseMoreEntries_ser es _ [e] [] (by simpa using hlen)]
    simp

theorem serHistory_ne_empty (h : List HistoryEntry) : serHistory h ≠ "" := by
  intro heq
  have hd : serHistoryChars h = [] := congrArg String.data heq
  cases h with
  | nil => exact absurd hd (by decide)
  | cons e es => simp [serHistoryChars] at hd

/-- C5: round-trip — persisting any history sequence (append serializes the
whole sequence into the storage slot) and loading it back (loadAll
deserializes that slot) reproduces exactly the same sequence of entries in
the same order, both through the guarded load of the component and through
the bare deserializer. -/
theorem C5_append_loadAll_roundtrip (h : List HistoryEntry) :
    loadHistory (some (serHistory h)) = some h ∧
    parseHistory (serHistory h) = some h := by
  have hp := parseHistory_serHistory h
  refine ⟨?_, hp⟩
  simp only [loadHistory]
  rw [if_neg (serHistory_ne_empty h)]
  exact hp

/-! ## Claim theorems: the background-image URL rewrite

The lemmas below characterise the modelled regex scan: `lazyFind` finds
exactly the shortest terminator occurrence, `matchUrlAt` matches one token
at the head of the input in each quoting style, and `rewriteValue` on a
single token reduces to the replacer callback.
-/
theorem dropLit_cons_ne (c d : Char) (cs ds : List Char) (h : c ≠ d) :
    dropLit (c :: cs) (d :: ds) = none := by
  simp [dropLit, h]

theorem lazyFind_exact (cs : List Char) (t0 : Char) (ts rest : List Char)
    (hcs : ∀ c ∈ cs, isDotChar c = true ∧ c ≠ t0) :
    lazyFind (t0 :: ts) (cs ++ ((t0 :: ts) ++ rest)) = some (cs, rest) := by
  induction cs with
  | nil =>
    rw [List.nil_append, List.cons_append, lazyFind, ← List.cons_append,
      dropLit_append]
  | cons c cs ih =>
    have hc := hcs c (by simp)
    rw [List.cons_append, lazyFind,
      dropLit_cons_ne t0 c ts _ (Ne.symm hc.2)]
    simp only [hc.1, if_true]
    rw [ih (fun c2 hc2 => hcs c2 (by simp [hc2]))]

theorem matchUrlAt_unquoted (inner rest : List Char)
    (hplain : ∀ c ∈ inner, isDotChar c = true ∧ c ≠ ')' ∧ c ≠ '\'' ∧ c ≠ '"') :
    matchUrlAt ("url(".data ++ (inner ++ (')' :: rest))) =
      some (⟨"", String.mk inner⟩, rest) := by
  have hfind : lazyFind [')'] (inner ++ (')' :: rest)) = some (inner, rest) :=
    lazyFind_exact inner ')' [] rest (fun c hc => ⟨(hplain c hc).1, (hplain c hc).2.1⟩)
  cases inner with
  | nil =>
    simp only [matchUrlAt, dropLit_append, List.nil_append]
    rw [show (')' = '\'' || ')' = '"') = false from by decide]
    simp only [Bool.false_eq_true, if_false]
    rw [List.nil_append] at hfind
    rw [hfind]
  | cons c0 cs0 =>
    have hc0 := hplain c0 (by simp)
    simp only [matchUrlAt]
    rw [dropLit_append]
    simp only [List.cons_append]
    rw [show (c0 = '\'' || c0 = '"') = false from by
      simp [hc0.2.2.1, hc0.2.2.2]]
    simp only [Bool.false_eq_true, if_false]
    rw [List.cons_append] at hfind
    rw [hfind]

theorem matchUrlAt_quoted (q : Char) (hq : q = '\'' ∨ q = '"')
    (inner rest : List Char)
    (hplain : ∀ c ∈ inner, isDotChar c = true ∧ c ≠ ')' ∧ c ≠ '\'' ∧ c ≠ '"') :
    matchUrlAt ("url(".data ++ (q :: (inner ++ (q :: ')' :: rest)))) =
      some (⟨String.mk [q], String.mk inner⟩, rest) := by
  have hqq : (q = '\'' || q = '"') = true := by
    rcases hq with h | h <;> subst h <;> decide
  have hfind : lazyFind [q, ')'] (inner ++ (q :: ')' :: rest)) = some (inner, rest) :=
    lazyFind_exact inner q [')'] rest (fun c hc => ⟨(hplain c hc).1, by
      rcases hq with h | h <;> subst h
      · exact (hplain c hc).2.2.1
      · exact (hplain c hc).2.2.2⟩)
  simp only [matchUrlAt]
  rw [dropLit_append]
  simp only [hqq, if_true]
  rw [hfind]

theorem replaceUrlTokens_nil (fuel : Nat) : replaceUrlTokens fuel [] = [] := by
  cases fuel <;> rfl

theorem rewriteValue_token (l : List Char) (tok : UrlToken)
    (hm : matchUrlAt l = some (tok, [])) :
    rewriteValue (String.mk l) = rewriteToken tok := by
  cases l with
  | nil =>
    rw [show matchUrlAt [] = none from rfl] at hm
    exact absurd hm (by simp)
  | cons c cs =>
    rw [rewriteValue]
    simp only [String.data_mk_eq, List.length_cons, replaceUrlTokens, hm,
      replaceUrlTokens_nil, List.append_nil, String.mk_data_eq]

theorem urlSafeChar_plain (c : Char) (h : urlSafeChar c = true) :
    isDotChar c = true ∧ c ≠ ')' ∧ c ≠ '\'' ∧ c ≠ '"' := by
  simp only [urlSafeChar, Bool.or_eq_true, Bool.and_eq_true,
    decide_eq_true_eq] at h
  have hval : c.toNat ≠ 10 ∧ c.toNat ≠ 13 ∧ c.toNat ≠ 8232 ∧ c.toNat ≠ 8233 ∧
      c.toNat ≠ 41 ∧ c.toNat ≠ 39 ∧ c.toNat ≠ 34 := by omega
  refine ⟨?_, ?_, ?_, ?_⟩
  · simp only [isDotChar, Bool.and_eq_true, decide_eq_true_eq]
    exact ⟨⟨⟨fun heq => hval.1 (by rw [heq]; rfl),
      fun heq => hval.2.1 (by rw [heq]; rfl)⟩,
      hval.2.2.1⟩, hval.2.2.2.1⟩
  · exact fun heq => hval.2.2.2.2.1 (by rw [heq]; rfl)
  · exact fun heq => hval.2.2.2.2.2.1 (by rw [heq]; rfl)
  · exact fun heq => hval.2.2.2.2.2.2 (by rw [heq]; rfl)

theorem resolveURL_relative (inner : List Char) (hhead : inner.head? ≠ some '/') :
    resolveURL (String.mk inner) = "http://localhost:3000/" ++ String.mk inner := by
  have hss : ∀ t : List Char, strStarts (String.mk inner) (String.mk ('/' :: t)) = false := by
    intro t
    cases inner with
    | nil => rfl
    | cons c cs =>
      have hc : ('/' : Char) ≠ c := fun heq => hhead (by rw [← heq]; rfl)
      simp only [strStarts, String.data_mk_eq, dropLit]
      rw [if_neg hc]
      rfl
  rw [resolveURL,
    show ("//" : String) = String.mk ['/', '/'] from rfl,
    show ("/" : String) = String.mk ['/'] from rfl,
    hss ['/'], hss []]
  simp

/-- C7 counterexample: the token `url(httpdocs/a.png)` has an inner
reference that uses neither a data-embedding scheme nor an absolute HTTP(S)
scheme, so the claim requires it to be rewritten to the reference resolved
against the dev origin; the plugin's exclusion test is the plain string
prefix "http", so the token is left unchanged. -/
theorem C7_counterexample_prefix_exclusion :
    transformBackgroundImage "url(httpdocs/a.png)" = "url(httpdocs/a.png)" ∧
    transformBackgroundImage "url(httpdocs/a.png)" ≠
      "url(http://localhost:3000/httpdocs/a.png)" :=
  ⟨by decide, by decide⟩

/-- C7 amended: the transform rewrites each url token whose inner reference
does not start with the literal prefixes "data:" or "http" into the
reference resolved against http://localhost:3000, preserving the quoting
style (unquoted, single- or double-quoted), and leaves every token starting
with those prefixes unchanged (including relative references such as
httpdocs/a.png that merely begin with the characters "http"); multiple
tokens in one declaration value are evaluated independently.  The general
part quantifies over exactly the references on which resolution against the
base is verbatim prefixing — references of `urlSafeChar` characters with no
leading slash and no `.` or `..` segments; outside that domain the URL
parser performs scheme detection, dot-segment normalization or
percent-encoding, which the resolver model does not cover, so the statement
makes no assertion there.  The first conjunct under the quantifier records
what the resolution is on this domain; the concrete parts are the spec's
examples and a two-token value. -/
theorem C7_amended_url_rewrite :
    (∀ inner : List Char,
      (∀ c ∈ inner, urlSafeChar c = true) →
      inner.head? ≠ some '/' →
      (∀ seg ∈ pathSegments inner, seg ≠ ['.'] ∧ seg ≠ ['.', '.']) →
      resolveURL (String.mk inner) = "http://localhost:3000/" ++ String.mk inner ∧
      rewriteValue (String.mk ("url(".data ++ (inner ++ [')']))) =
          rewriteToken ⟨"", String.mk inner⟩ ∧
      rewriteValue (String.mk ("url(".data ++ ('\'' :: (inner ++ ['\'', ')'])))) =
          rewriteToken ⟨String.mk ['\''], String.mk inner⟩ ∧
      rewriteValue (String.mk ("url(".data ++ ('"' :: (inner ++ ['"', ')'])))) =
          rewriteToken ⟨String.mk ['"'], String.mk inner⟩) ∧
    transformBackgroundImage "url(\x27images/a.png\x27)" =
      "url(\x27http://localhost:3000/images/a.png\x27)" ∧
    transformBackgroundImage "url(http://cdn.example/a.png)" =
      "url(http://cdn.example/a.png)" ∧
    transformBackgroundImage "url(data:image/png;base64,AAAA)" =
      "url(data:image/png;base64,AAAA)" ∧
    transformBackgroundImage
        "url(\x27images/a.png\x27) url(http://cdn.example/a.png)" =
      "url(\x27http://localhost:3000/images/a.png\x27) url(http://cdn.example/a.png)" := by
  refine ⟨?_, by decide, by decide, by decide, by decide⟩
  intro inner hsafe hhead _hsegs
  have hplain : ∀ c ∈ inner, isDotChar c = true ∧ c ≠ ')' ∧ c ≠ '\'' ∧ c ≠ '"' :=
    fun c hc => urlSafeChar_plain c (hsafe c hc)
  exact ⟨resolveURL_relative inner hhead,
    rewriteValue_token _ _ (matchUrlAt_unquoted inner [] hplain),
    rewriteValue_token _ _ (matchUrlAt_quoted '\'' (Or.inl rfl) inner [] hplain),
    rewriteValue_token _ _ (matchUrlAt_quoted '"' (Or.inr rfl) inner [] hplain)⟩

/-- C7 witness: the general part of the amended claim instantiated at the
single-quoted token around the inner reference images/a.png, which lies in
the quantified domain (URL-safe characters, no leading slash, no dot
segments). -/
theorem C7_amended_witness :
    (∀ c ∈ ("images/a.png".data : List Char), urlSafeChar c = true) ∧
    ("images/a.png".data : List Char).head? ≠ some '/' ∧
    (∀ seg ∈ pathSegments "images/a.png".data, seg ≠ ['.'] ∧ seg ≠ ['.', '.']) ∧
    resolveURL (String.mk "images/a.png".data) =
      "http://localhost:3000/" ++ String.mk "images/a.png".data ∧
    rewriteValue (String.mk ("url(".data ++ ('\'' :: ("images/a.png".data ++ ['\'', ')'])))) =
      rewriteToken ⟨String.mk ['\''], String.mk "images/a.png".data⟩ :=
  ⟨by decide, by decide, by decide,
    (C7_amended_url_rewrite.1 "images/a.png".data (by decide) (by decide) (by decide)).1,
    (C7_amended_url_rewrite.1 "images/a.png".data (by decide) (by decide) (by decide)).2.2.1⟩
